import Mathlib

/-!
Verification of the deployment-gatekeeper scripts (`scripts/predeploy.py`,
`scripts/common.py`) of the `equinor/omnia-prevent-ci` repository.

The Python code is shallowly embedded: the GitHub event context and the
remote API are a record of oracles (`CIState`), fallible operations
(network fetches, Python exceptions such as the `IndexError` raised by
`_extract_title` on an empty string) are `Option`-valued, and the three
regular expressions are compiled to executable recognizers with Python
`re.match` (match-at-start, `.` not matching a newline) semantics.
-/

/-- Characters Python `str.splitlines` treats as line boundaries
(`\n \r \v \f \x1c \x1d \x1e \x85    `). -/
def isLineBreak (c : Char) : Bool :=
  c == '\n' || c == '\r' || c == Char.ofNat 0x0b || c == Char.ofNat 0x0c ||
  c == Char.ofNat 0x1c || c == Char.ofNat 0x1d || c == Char.ofNat 0x1e ||
  c == Char.ofNat 0x85 || c == Char.ofNat 0x2028 || c == Char.ofNat 0x2029

/-- Characters matched by Python's `\s` in a `str` pattern, restricted to
the Latin-1 range (higher Unicode whitespace does not occur in any input
considered here). -/
def isPySpace (c : Char) : Bool :=
  c == ' ' || c == '\t' || c == '\n' || c == '\r' ||
  c == Char.ofNat 0x0b || c == Char.ofNat 0x0c ||
  c == Char.ofNat 0x1c || c == Char.ofNat 0x1d || c == Char.ofNat 0x1e ||
  c == Char.ofNat 0x1f || c == Char.ofNat 0x85 || c == Char.ofNat 0xa0

/-- Drop the literal pattern `p` from the front of `s`; `none` if `s` does
not start with `p`. -/
def dropLit : List Char → List Char → Option (List Char)
  | [], s => some s
  | _ :: _, [] => none
  | p :: ps, c :: cs => if c == p then dropLit ps cs else none

/-- Case-insensitive test that `s` starts with the (already lowercased)
literal `p`, modelling `re.IGNORECASE` on ASCII literals. -/
def ciStartsWith : List Char → List Char → Bool
  | [], _ => true
  | _ :: _, [] => false
  | p :: ps, c :: cs => c.toLower == p && ciStartsWith ps cs

/-- Semantics of `.*` followed by the rest of a pattern under Python `re`:
some split `s = x ++ t` exists with no newline in `x` and the rest of the
pattern (`p`) matching at `t`. -/
def dotStarThen (p : List Char → Bool) : List Char → Bool
  | [] => p []
  | c :: rest => p (c :: rest) || (c != '\n' && dotStarThen p rest)

/-- `re.match` success of `RELEASE_PATTERN = v[0-9]+(\.[0-9]+)*([a-z]+[0-9]+)?`.
The starred group and the optional group both admit the empty match and the
pattern is unanchored at the right, so a match at position 0 exists exactly
when the mandatory prefix `v[0-9]+` is present, i.e. the text starts with
`v` followed by a digit. -/
def releasePatternMatch (s : String) : Bool :=
  match s.data with
  | 'v' :: d :: _ => d.isDigit
  | _ => false

/-- `re.match` success of `AUX_PR_PATTERN = [0-9\s]*Aux:.*` with
`re.IGNORECASE`: some run of digits/whitespace followed by `aux:`
(case-insensitively); the trailing `.*` always matches. -/
def auxPrMatchL : List Char → Bool
  | [] => false
  | c :: rest =>
    ciStartsWith ['a', 'u', 'x', ':'] (c :: rest) ||
      ((c.isDigit || isPySpace c) && auxPrMatchL rest)

def auxPrMatch (s : String) : Bool := auxPrMatchL s.data

/-- Tail of `AUTO_PR_PATTERN` after the second `.*`: the literal
` in kustomization`, then the unescaped `.` (any non-newline character),
then the literal `yaml`; the final `.*` always matches. -/
def autoTailMatch (w : List Char) : Bool :=
  match dropLit (" in kustomization".data) w with
  | none => false
  | some x =>
    match x with
    | c :: y => c != '\n' && (dropLit ("yaml".data) y).isSome
    | [] => false

/-- `re.match` success of
`AUTO_PR_PATTERN = Automatically set version .* of image .* in kustomization.yaml.*`. -/
def autoPrMatchL (s : List Char) : Bool :=
  match dropLit ("Automatically set version ".data) s with
  | none => false
  | some t =>
    dotStarThen (fun u =>
      match dropLit (" of image ".data) u with
      | none => false
      | some v => dotStarThen autoTailMatch v) t

def autoPrMatch (s : String) : Bool := autoPrMatchL s.data

/-- The characters of `s` before the first occurrence of the literal
separator `sep`; all of `s` when `sep` does not occur. This is
Python `s.split(sep, 1)[0]`. -/
def splitHead (sep : List Char) : List Char → List Char
  | [] => []
  | c :: rest => if sep.isPrefixOf (c :: rest) then [] else c :: splitHead sep rest

/-- Does the contiguous sequence `sep` occur anywhere in `s`? -/
def containsSeq (sep : List Char) : List Char → Bool
  | [] => sep.isEmpty
  | c :: rest => sep.isPrefixOf (c :: rest) || containsSeq sep rest

/-- `_extract_title(text)`:
`text.split(r"\n", 1)[0].split(r"\r", 1)[0].splitlines()[0]`.
The splits are on the two-character escape sequences backslash-`n` and
backslash-`r`; `splitlines()[0]` keeps the part before the first real line
boundary and raises `IndexError` (here `none`) when its argument is the
empty string, because `"".splitlines()` is `[]`. -/
def _extract_title (text : String) : Option String :=
  match splitHead ['\\', 'r'] (splitHead ['\\', 'n'] text.data) with
  | [] => none
  | c :: rest => some ⟨List.takeWhile (fun x => !isLineBreak x) (c :: rest)⟩

/-- A fetched commit object: the fields of the GitHub commit payload that
`predeploy.py` reads. `htmlUrl` is `none` when the payload lacks the
`html_url` key, making `commit.get('html_url', commit.url)` fall back to
`commit.url`. -/
structure Commit where
  sha : String
  message : String
  committerEmail : String
  parents : List String
  htmlUrl : Option String
  url : String

/-- The GitHub Actions context plus the remote API, as read-only oracles.
`fetchCommit` models `api.git.get_commit`, `branchHead` the composition
`api.git.get_ref` / `api.git.get_commit` of `get_last_commit`, and
`compareStatus a b` the field `api.repos.compare_commits(a, b).status`;
a `none` from a fetch stands for a raised exception. -/
structure CIState where
  eventName : String
  prTitle : String
  prDraft : Bool
  prHref : String
  releaseTag : String
  headRef : String
  contextSha : String
  pushHeadCommit : Commit
  mainBranch : String
  fetchCommit : String → Option Commit
  branchHead : String → Option Commit
  compareStatus : String → String → String

/-- `scripts/common.py`: `DEPLOY_DEV_BRANCH = "deploy/dev"`. -/
def DEPLOY_DEV_BRANCH : String := "deploy/dev"

/-- `scripts/common.py`: the fixed bot committer-email allow-list. -/
def BOT_EMAILS : List String :=
  ["github-actions[bot]@users.noreply.github.com", "noreply@github.com"]

/-- `scripts/common.py` `get_current_commit`: the push event's head commit
for `push` events, otherwise a fetch of the context SHA. -/
def get_current_commit (st : CIState) : Option Commit :=
  if st.eventName == "push" then some st.pushHeadCommit
  else st.fetchCommit st.contextSha

/-- `scripts/common.py` `get_last_commit`: resolve a branch ref and fetch
its commit. -/
def get_last_commit (st : CIState) (branchName : String) : Option Commit :=
  st.branchHead branchName

/-- Python `s.endswith(suf)`. -/
def strEndsWith (s suf : String) : Bool := suf.data.isSuffixOf s.data

/-- `get_deploy_note(commit=None)`: for a `pull_request` event with no
explicit commit, `"PR: <title> <link>"` from the PR title; otherwise
`"Commit: <title> <link>"` from the explicit commit or, failing that, the
current commit. -/
def get_deploy_note (st : CIState) (commit : Option Commit) : Option String :=
  if st.eventName == "pull_request" && commit.isNone then
    match _extract_title st.prTitle with
    | none => none
    | some t => some ("PR: " ++ t ++ " " ++ st.prHref)
  else
    match (match commit with | some c => some c | none => get_current_commit st) with
    | none => none
    | some c =>
      match _extract_title c.message with
      | none => none
      | some t => some ("Commit: " ++ t ++ " " ++ c.htmlUrl.getD c.url)

/-- `_is_human_commit()`: for a merge commit (more than one parent) fetch
every parent and examine those, otherwise examine the current commit
itself; the result is `False` as soon as one examined commit has a bot
committer email and an `AUTO_PR_PATTERN`-matching message, `True`
otherwise. -/
def _is_human_commit (st : CIState) : Option Bool :=
  match get_current_commit st with
  | none => none
  | some cur =>
    match (if cur.parents.length > 1 then cur.parents.mapM st.fetchCommit
           else some [cur]) with
    | none => none
    | some commits =>
      some (commits.all (fun c =>
        !(BOT_EMAILS.contains c.committerEmail && autoPrMatch c.message)))

/-- `check_deploy_required()`: the ordered short-circuit checks of
`predeploy.py` lines 57-78. -/
def check_deploy_required (st : CIState) : Option Bool :=
  if st.eventName == "release" && !releasePatternMatch st.releaseTag then
    some false
  else if st.eventName != "pull_request" then some true
  else if st.prDraft then some false
  else if auxPrMatch st.prTitle then some false
  else _is_human_commit st

/-- `_is_branch_directly_deployed()`: is the main branch or the event's
head branch identical to `deploy/dev`?  (The Python function returns
`True` or falls through returning `None`; callers use it as a boolean.) -/
def _is_branch_directly_deployed (st : CIState) : Bool :=
  [st.mainBranch, st.headRef].any
    (fun b => st.compareStatus b DEPLOY_DEV_BRANCH == "identical")

/-- The candidate loop of `check_safe_to_deploy` lines 114-121: for each
candidate (`None` = HEAD, then the main branch's last commit), skip when
the deploy branch's last committer is not a bot, otherwise compare the
deploy branch's last message against the candidate's deploy note. -/
def safeCandidates (st : CIState) (lastDeploy : Commit) :
    List (Option Commit) → Option Bool
  | [] => some false
  | cand :: rest =>
    if !(BOT_EMAILS.contains lastDeploy.committerEmail) then
      safeCandidates st lastDeploy rest
    else
      match get_deploy_note st cand with
      | none => none
      | some note =>
        if strEndsWith lastDeploy.message note then some true
        else safeCandidates st lastDeploy rest

/-- `check_safe_to_deploy()`: `predeploy.py` lines 102-122. -/
def check_safe_to_deploy (st : CIState) : Option Bool :=
  if st.eventName != "pull_request" then some true
  else if _is_branch_directly_deployed st then some true
  else
    match get_last_commit st DEPLOY_DEV_BRANCH with
    | none => none
    | some lastDeploy =>
      match get_last_commit st st.mainBranch with
      | none => none
      | some lastMain => safeCandidates st lastDeploy [none, some lastMain]

/-- Characters `shlex.quote` leaves unquoted: the `_find_unsafe` regex
(ASCII mode, complement of word characters and of `@ % + = : , . / -`)
finds nothing, i.e. every character is ASCII alphanumeric, `_`, or one of
`@ % + = : , . /` or the hyphen. -/
def isShlexSafeChar (c : Char) : Bool :=
  c.isAlpha || c.isDigit || c == '_' || c == '@' || c == '%' || c == '+' ||
  c == '=' || c == ':' || c == ',' || c == '.' || c == '/' || c == '-'

/-- The body rewrite of `shlex.quote`:
`s.replace("'", "'\"'\"'")` over the character list. -/
def sqEscape : List Char → List Char
  | [] => []
  | c :: rest =>
    (if c == '\'' then ['\'', '"', '\'', '"', '\''] else [c]) ++ sqEscape rest

/-- Core of `shlex.quote` on the character list: two single quotes for
the empty string, the input itself when every character is safe, else the
input with single quotes escaped, wrapped in single quotes. -/
def shlexQuoteL (l : List Char) : List Char :=
  if l.isEmpty then ['\'', '\'']
  else if l.all isShlexSafeChar then l
  else '\'' :: (sqEscape l ++ ['\''])

/-- `shlex.quote(s)`. -/
def shlexQuote (s : String) : String := ⟨shlexQuoteL s.data⟩

/-- Characters a POSIX shell treats specially outside quotes (metacharacters,
quoting characters, expansion and globbing triggers); a bare occurrence of
one is not a literal word character. -/
def isShellSpecial (c : Char) : Bool :=
  c == ' ' || c == '\t' || c == '\n' || c == '|' || c == '&' || c == ';' ||
  c == '<' || c == '>' || c == '(' || c == ')' || c == '$' || c == '"' ||
  c == '\'' || c == '*' || c == '?' || c == '[' || c == ']' || c == '#' ||
  c == '~' || c == '!' || c == '^' || c == '\\' || c == Char.ofNat 0x60 ||
  c == Char.ofNat 0x7b || c == Char.ofNat 0x7d

/-- Quoting context of the shell-word scanner: outside quotes, inside a
single-quoted span, inside a double-quoted span. -/
inductive QuoteMode
  | normal
  | single
  | double

/-- Prepend a character to the result of a partial parse. -/
def consOpt (c : Char) : Option (List Char) → Option (List Char)
  | none => none
  | some w => some (c :: w)

/-- Modelled from the spec: POSIX shell dequoting of one word, the
reversibility reference for the quoted note (`spec.md` section 4.1:
"unquoting yields the exact original string").  Bare ordinary characters
are literal; a backslash escapes the next character (or joins the line at
a newline); a single-quoted span is literal up to the closing quote; in a
double-quoted span a backslash escapes `$`, backtick, `"`, `\` and a
newline and is otherwise itself literal.  An unterminated quote, a
trailing backslash, a bare special character, or an unescaped `$` or
backtick in double quotes (the start of an expansion a faithful dequoter
cannot resolve) yields `none`. -/
def parseWordM : QuoteMode → List Char → Option (List Char)
  | .normal, [] => some []
  | .single, [] => none
  | .double, [] => none
  | .normal, c :: rest =>
    if c == '\'' then parseWordM .single rest
    else if c == '"' then parseWordM .double rest
    else if c == '\\' then
      match rest with
      | [] => none
      | d :: rest2 =>
        if d == '\n' then parseWordM .normal rest2
        else consOpt d (parseWordM .normal rest2)
    else if isShellSpecial c then none
    else consOpt c (parseWordM .normal rest)
  | .single, c :: rest =>
    if c == '\'' then parseWordM .normal rest
    else consOpt c (parseWordM .single rest)
  | .double, c :: rest =>
    if c == '"' then parseWordM .normal rest
    else if c == '\\' then
      match rest with
      | [] => none
      | d :: rest2 =>
        if d == '$' || d == Char.ofNat 0x60 || d == '"' || d == '\\' then
          consOpt d (parseWordM .double rest2)
        else if d == '\n' then parseWordM .double rest2
        else consOpt '\\' (consOpt d (parseWordM .double rest2))
    else if c == '$' || c == Char.ofNat 0x60 then none
    else consOpt c (parseWordM .double rest)
  termination_by structural _ l => l

/-- Modelled from the spec: the string a POSIX shell passes as the
argument when given the token `s`. -/
def shellUnquote (s : String) : Option String :=
  (parseWordM .normal s.data).map String.mk

/-- The observable outcome of one `__main__` run of `predeploy.py`:
the named outputs in emission order, whether `actions_error` was called,
and the process exit status. -/
structure RunResult where
  outputs : List (String × String)
  errorReported : Bool
  exitCode : Nat

/-- The `__main__` block of `predeploy.py` (lines 133-156).  `none` models
an uncaught exception (e.g. the `IndexError` of `_extract_title`, or a
failed fetch).  `check_safe_to_deploy` runs only when a deploy is
required, mirroring the short-circuit `and`. -/
def mainRun (st : CIState) : Option RunResult :=
  match get_deploy_note st none with
  | none => none
  | some note =>
    match check_deploy_required st with
    | none => none
    | some required =>
      let outs := [("note_raw", note), ("note_clean", shlexQuote note),
                   ("confirm", if required then "true" else "false")]
      if required then
        match check_safe_to_deploy st with
        | none => none
        | some safe =>
          if safe then some ⟨outs, false, 0⟩ else some ⟨outs, true, 1⟩
      else some ⟨outs, false, 0⟩

/-- States of the deterministic automaton for the anchored version-tag
language. -/
inductive RVState
  | s0
  | s1
  | s2
  | s3
  | s4
  | s5

/-- Automaton steps for the anchored version-tag shape: `v`, one or more
digits, dot-separated digit groups, an optional trailing run of lowercase
letters followed by digits.  Accepting states are a completed digit group
and a completed pre-release suffix. -/
def releaseFullAux : RVState → List Char → Bool
  | .s2, [] => true
  | .s5, [] => true
  | _, [] => false
  | .s0, c :: rest => c == 'v' && releaseFullAux .s1 rest
  | .s1, c :: rest => c.isDigit && releaseFullAux .s2 rest
  | .s2, c :: rest =>
    if c.isDigit then releaseFullAux .s2 rest
    else if c == '.' then releaseFullAux .s3 rest
    else (('a' ≤ c && c ≤ 'z') && releaseFullAux .s4 rest)
  | .s3, c :: rest => c.isDigit && releaseFullAux .s2 rest
  | .s4, c :: rest =>
    if 'a' ≤ c && c ≤ 'z' then releaseFullAux .s4 rest
    else (c.isDigit && releaseFullAux .s5 rest)
  | .s5, c :: rest => c.isDigit && releaseFullAux .s5 rest

/-- Modelled from the spec: the version-tag pattern required to span the
WHOLE tag (`v` followed by dot-separated numeric groups, optional trailing
pre-release suffix of a lowercase letter-run plus digits) — the anchored
reading against which the code's unanchored `re.match` is compared. -/
def releasePatternFullMatch (s : String) : Bool :=
  releaseFullAux .s0 s.data

/-- A commit record with no content, used to fill unread fields of example
states. -/
def nullCommit : Commit := ⟨"", "", "", [], none, ""⟩

/-- Example: a human-authored parent of a merge commit. -/
def exHumanParent : Commit :=
  ⟨"p1", "Fix bug", "dev@example.com", [], none, "https://x/p1"⟩

/-- Example: a bot-authored parent whose message matches
`AUTO_PR_PATTERN`. -/
def exBotParent : Commit :=
  ⟨"p2", "Automatically set version 1.2.3 of image app in kustomization.yaml",
   "noreply@github.com", [], none, "https://x/p2"⟩

/-- Example: a merge commit with the two parents above. -/
def exMergeCommit : Commit :=
  ⟨"msha", "Merge pull request #1", "noreply@github.com", ["p1", "p2"], none,
   "https://x/msha"⟩

/-- Example commit oracle resolving the merge commit and its parents. -/
def exFetch : String → Option Commit := fun s =>
  if s == "msha" then some exMergeCommit
  else if s == "p1" then some exHumanParent
  else if s == "p2" then some exBotParent
  else none

/-- Example: a pull-request event whose current commit is the merge of a
human parent and a bot parent. -/
def exMergeState : CIState :=
  ⟨"pull_request", "Add retry logic", false, "https://x/pr/1", "", "feature",
   "msha", nullCommit, "main", exFetch, fun _ => none, fun _ _ => "diverged"⟩

/-- Example: a human-authored head commit of a pull request (one parent). -/
def exPrHeadCommit : Commit :=
  ⟨"h1", "Add retry logic", "dev@example.com", ["p0"], some "https://x/h1",
   "https://x/h1"⟩

/-- Example commit oracle resolving only the pull-request head commit. -/
def exPrFetch : String → Option Commit := fun s =>
  if s == "h1" then some exPrHeadCommit else none

/-- Example: a non-draft, non-auxiliary pull-request event on a human
commit. -/
def exPrHumanState : CIState :=
  ⟨"pull_request", "Add retry logic", false, "https://x/pr/1", "", "feature",
   "h1", nullCommit, "main", exPrFetch, fun _ => none, fun _ _ => "diverged"⟩

/-- Example: the last commit of the main branch. -/
def exMainCommit : Commit :=
  ⟨"m1", "Add retry logic", "dev@example.com", [], some "https://x/m1",
   "https://x/m1"⟩

/-- Example: the deploy branch's last commit — bot-committed, its message
ending with the deploy note of the pull request. -/
def exDeployCommit : Commit :=
  ⟨"d1", "Deploy: PR: Add retry logic https://x/pr/1", "noreply@github.com",
   [], none, "https://x/d1"⟩

/-- Example branch-head oracle for the safety check. -/
def exSafeBranchHead : String → Option Commit := fun b =>
  if b == "deploy/dev" then some exDeployCommit
  else if b == "main" then some exMainCommit
  else none

/-- Example: a pull-request event whose branches are not identical to
`deploy/dev`, with the branch heads above. -/
def exSafeState : CIState :=
  ⟨"pull_request", "Add retry logic", false, "https://x/pr/1", "", "feature",
   "h1", nullCommit, "main", exPrFetch, exSafeBranchHead, fun _ _ => "ahead"⟩

/-- Example: a push event with a human head commit. -/
def exPushCommit : Commit :=
  ⟨"h", "Fix bug", "dev@example.com", [], some "https://x/h", "https://x/h"⟩

/-- Example push-event state. -/
def exPushState : CIState :=
  ⟨"push", "", false, "", "", "", "h", exPushCommit, "main", fun _ => none,
   fun _ => none, fun _ _ => "diverged"⟩

/-- Example: a push event whose head commit is a bot version bump with one
parent. -/
def exBotPushCommit : Commit :=
  ⟨"b", "Automatically set version 1.2.3 of image app in kustomization.yaml",
   "noreply@github.com", ["x"], none, "https://x/b"⟩

/-- Example push-event state on the bot bump commit. -/
def exBotPushState : CIState :=
  ⟨"push", "", false, "", "", "", "b", exBotPushCommit, "main", fun _ => none,
   fun _ => none, fun _ _ => "diverged"⟩

/-- Example: a release event with a version tag. -/
def exReleaseState : CIState :=
  ⟨"release", "", false, "", "v1.2.3", "", "r", nullCommit, "main",
   fun _ => none, fun _ => none, fun _ _ => "diverged"⟩

/-- Example: a release event whose tag only starts with a version-shaped
prefix. -/
def exNightlyState : CIState :=
  ⟨"release", "", false, "", "v1-nightly", "", "r", nullCommit, "main",
   fun _ => none, fun _ => none, fun _ _ => "diverged"⟩

/-- Example: a pull-request event whose title is the empty string. -/
def exEmptyTitlePrState : CIState :=
  ⟨"pull_request", "", false, "https://x/pr/9", "", "feature", "e",
   nullCommit, "main", fun _ => none, fun _ => none, fun _ _ => "diverged"⟩

/-- Example: the run outcome of `exPushState`. -/
def exRun : RunResult :=
  ⟨[("note_raw", "Commit: Fix bug https://x/h"),
    ("note_clean", shlexQuote "Commit: Fix bug https://x/h"),
    ("confirm", "true")], false, 0⟩

/-- C1 (amended): for a merge commit (more than one parent) each parent is
fetched and examined, and the merge is classified human (true) iff NO
parent is a bot commit with a pattern-matching message; in particular for
parents where one is human and one is a bot with a matching message, the
classification is bot (false). -/
theorem merge_commit_classification (st : CIState) (cur : Commit) (ps : List Commit)
    (hcur : get_current_commit st = some cur)
    (hlen : cur.parents.length > 1)
    (hps : cur.parents.mapM st.fetchCommit = some ps) :
    _is_human_commit st = some (ps.all (fun c =>
      !(BOT_EMAILS.contains c.committerEmail && autoPrMatch c.message))) := by
  simp only [_is_human_commit, hcur, if_pos hlen, hps]

/-- Counterexample to C1 as stated: a merge of a human-authored parent and
a bot-authored parent with a pattern-matching message is classified bot
(false), not human (true) as the claim predicts. -/
theorem merge_with_bot_parent_counterexample :
    _is_human_commit exMergeState = some false := rfl

/-- Witness instantiating `merge_commit_classification` at the concrete
merge state. -/
theorem merge_commit_classification_witness :
    _is_human_commit exMergeState = some ([exHumanParent, exBotParent].all (fun c =>
      !(BOT_EMAILS.contains c.committerEmail && autoPrMatch c.message))) :=
  merge_commit_classification exMergeState exMergeCommit [exHumanParent, exBotParent]
    rfl (by decide) rfl

/-- C6: for a commit with at most one parent, the classification is false
iff the committer email is in the bot allow-list AND the message matches
the automatic-version-bump pattern; any deviation in either condition
makes it true. -/
theorem human_commit_nonmerge (st : CIState) (cur : Commit)
    (hcur : get_current_commit st = some cur)
    (hlen : cur.parents.length ≤ 1) :
    _is_human_commit st = some
      (!(BOT_EMAILS.contains cur.committerEmail && autoPrMatch cur.message)) := by
  simp only [_is_human_commit, hcur, if_neg (by omega : ¬ cur.parents.length > 1),
    List.all_cons, List.all_nil, Bool.and_true]

/-- Witness instantiating `human_commit_nonmerge` at a push event on a
one-parent bot bump commit (classified false). -/
theorem human_commit_nonmerge_witness :
    _is_human_commit exBotPushState = some
      (!(BOT_EMAILS.contains exBotPushCommit.committerEmail &&
         autoPrMatch exBotPushCommit.message)) :=
  human_commit_nonmerge exBotPushState exBotPushCommit rfl (by decide)

/-- C4: for a pull-request event the checks short-circuit in order — draft
first (false regardless of title), then the auxiliary title pattern
(false), then the human-commit classification of the current commit; and
the title "123 Aux: cleanup docs" matches the auxiliary pattern while
"Add retry logic" does not. -/
theorem deploy_required_pr_order (st : CIState) (hpr : st.eventName = "pull_request") :
    (st.prDraft = true → check_deploy_required st = some false) ∧
    (st.prDraft = false → auxPrMatch st.prTitle = true →
      check_deploy_required st = some false) ∧
    (st.prDraft = false → auxPrMatch st.prTitle = false →
      check_deploy_required st = _is_human_commit st) ∧
    auxPrMatch "123 Aux: cleanup docs" = true ∧
    auxPrMatch "Add retry logic" = false := by
  refine ⟨?_, ?_, ?_, by decide, by decide⟩
  · intro h1
    simp only [check_deploy_required]
    rw [hpr, h1]
    rfl
  · intro h1 h2
    simp only [check_deploy_required]
    rw [hpr, h1, h2]
    rfl
  · intro h1 h2
    simp only [check_deploy_required]
    rw [hpr, h1, h2]
    rfl

/-- Witness instantiating `deploy_required_pr_order` at a non-draft,
non-auxiliary pull request, where the decision equals the commit
classification. -/
theorem deploy_required_pr_order_witness :
    check_deploy_required exPrHumanState = _is_human_commit exPrHumanState :=
  (deploy_required_pr_order exPrHumanState rfl).2.2.1 rfl (by decide)

/-- C5: for every non-pull-request event the decision is false exactly for
a release whose tag does not match the version pattern and true otherwise,
independently of any commit fetch; the tag "nightly-build" does not match
and "v1.2.3" does. -/
theorem deploy_required_nonpr (st : CIState) (hpr : st.eventName ≠ "pull_request") :
    check_deploy_required st =
      some (!(st.eventName == "release" && !releasePatternMatch st.releaseTag)) ∧
    releasePatternMatch "nightly-build" = false ∧
    releasePatternMatch "v1.2.3" = true := by
  refine ⟨?_, by decide, by decide⟩
  have hb : (st.eventName != "pull_request") = true := by
    simp [bne_iff_ne, hpr]
  simp only [check_deploy_required]
  cases hrel : (st.eventName == "release" && !releasePatternMatch st.releaseTag) with
  | true => rfl
  | false =>
    rw [hb]
    rfl

/-- Witness instantiating `deploy_required_nonpr` at a release event with
a version tag (deploy required). -/
theorem deploy_required_nonpr_witness :
    check_deploy_required exReleaseState =
      some (!(exReleaseState.eventName == "release" &&
              !releasePatternMatch exReleaseState.releaseTag)) ∧
    releasePatternMatch "nightly-build" = false ∧
    releasePatternMatch "v1.2.3" = true :=
  deploy_required_nonpr exReleaseState (by decide)

/-- C10: the tag check is an unanchored prefix match, so a release whose
tag merely begins with a version-shaped prefix — "v1-nightly",
"v1.2.3.anything" — is treated as a version tag and the deploy is
required, although neither tag has the version shape as a whole
(anchored match false). -/
theorem release_prefix_match (st : CIState) (hev : st.eventName = "release")
    (htag : releasePatternMatch st.releaseTag = true) :
    check_deploy_required st = some true ∧
    releasePatternMatch "v1-nightly" = true ∧
    releasePatternMatch "v1.2.3.anything" = true ∧
    releasePatternFullMatch "v1-nightly" = false ∧
    releasePatternFullMatch "v1.2.3.anything" = false := by
  refine ⟨?_, by decide, by decide, by decide, by decide⟩
  simp only [check_deploy_required]
  rw [hev, htag]
  rfl

/-- Witness instantiating `release_prefix_match` at the release event with
tag "v1-nightly". -/
theorem release_prefix_match_witness :
    check_deploy_required exNightlyState = some true ∧
    releasePatternMatch "v1-nightly" = true ∧
    releasePatternMatch "v1.2.3.anything" = true ∧
    releasePatternFullMatch "v1-nightly" = false ∧
    releasePatternFullMatch "v1.2.3.anything" = false :=
  release_prefix_match exNightlyState rfl (by decide)

/-- C9: on the empty source text (an empty PR title, or a title consumed
entirely by the escape-sequence split) `_extract_title` yields no result
(IndexError), hence `get_deploy_note` and the entry point raise instead
of producing a note. -/
theorem empty_title_partiality :
    _extract_title "" = none ∧ _extract_title "\\nfoo" = none ∧
    get_deploy_note exEmptyTitlePrState none = none ∧
    mainRun exEmptyTitlePrState = none :=
  ⟨rfl, rfl, rfl, rfl⟩

/-- C2: a non-pull-request event is always safe; a pull-request event is
safe when the main branch or the event's head branch compares identical to
the deploy branch; otherwise it is safe iff the deploy branch's last
commit has a bot committer email and its message ends with the deploy note
of one of the two candidates (the event's head, or the main branch's last
commit), and unsafe when neither holds — an exact suffix comparison, so
any one-character difference breaks the match. -/
theorem safe_to_deploy_characterization (st : CIState) (d m : Commit) (nh nm : String)
    (hd : st.branchHead DEPLOY_DEV_BRANCH = some d)
    (hm : st.branchHead st.mainBranch = some m)
    (hnh : get_deploy_note st none = some nh)
    (hnm : get_deploy_note st (some m) = some nm) :
    (st.eventName ≠ "pull_request" → check_safe_to_deploy st = some true) ∧
    (st.eventName = "pull_request" → _is_branch_directly_deployed st = true →
      check_safe_to_deploy st = some true) ∧
    (st.eventName = "pull_request" → _is_branch_directly_deployed st = false →
      check_safe_to_deploy st = some (BOT_EMAILS.contains d.committerEmail &&
        (strEndsWith d.message nh || strEndsWith d.message nm))) := by
  refine ⟨?_, ?_, ?_⟩
  · intro hpr
    have hb : (st.eventName != "pull_request") = true := by
      simp [bne_iff_ne, hpr]
    simp only [check_safe_to_deploy]
    rw [hb]
    rfl
  · intro hpr hdd
    have hb : (st.eventName != "pull_request") = false := by
      simp [bne_iff_ne, hpr]
    simp only [check_safe_to_deploy]
    rw [hb, hdd]
    rfl
  · intro hpr hdd
    have hb : (st.eventName != "pull_request") = false := by
      simp [bne_iff_ne, hpr]
    simp only [check_safe_to_deploy, get_last_commit]
    rw [hb, hdd, hd, hm]
    simp only [safeCandidates, hnh, hnm]
    cases hbot : BOT_EMAILS.contains d.committerEmail with
    | false => rfl
    | true =>
      cases h1 : strEndsWith d.message nh <;> cases h2 : strEndsWith d.message nm <;>
        simp [h1, h2]

/-- Witness instantiating `safe_to_deploy_characterization` at a concrete
diverged pull-request state whose deploy branch tip is a bot commit ending
with the PR note. -/
theorem safe_to_deploy_characterization_witness :
    check_safe_to_deploy exSafeState =
      some (BOT_EMAILS.contains exDeployCommit.committerEmail &&
        (strEndsWith exDeployCommit.message "PR: Add retry logic https://x/pr/1" ||
         strEndsWith exDeployCommit.message "Commit: Add retry logic https://x/m1")) :=
  (safe_to_deploy_characterization exSafeState exDeployCommit exMainCommit
    "PR: Add retry logic https://x/pr/1" "Commit: Add retry logic https://x/m1"
    rfl rfl rfl rfl).2.2 rfl (by decide)

/-- C3: every completed run emits the outputs note_raw (the deploy note),
note_clean (its shell-quoted form) and confirm (the lowercase
deploy-required flag), and reports an error with exit status 1 iff the
deploy is required and not safe; in every other case it reports no error
and exits 0. -/
theorem main_run_outputs_and_exit (st : CIState) (r : RunResult)
    (note : String) (required : Bool)
    (hn : get_deploy_note st none = some note)
    (hr : check_deploy_required st = some required)
    (hrun : mainRun st = some r) :
    r.outputs = [("note_raw", note), ("note_clean", shlexQuote note),
                 ("confirm", if required then "true" else "false")] ∧
    ((r.errorReported = true ∧ r.exitCode = 1) ↔
      (required = true ∧ check_safe_to_deploy st = some false)) ∧
    ((required = true ∧ check_safe_to_deploy st = some false) ∨
      (r.errorReported = false ∧ r.exitCode = 0)) := by
  simp only [mainRun, hn, hr] at hrun
  cases required with
  | false =>
    simp only [if_neg (by simp : ¬ (false = true))] at hrun
    injection hrun with h
    subst h
    refine ⟨rfl, ?_, Or.inr ⟨rfl, rfl⟩⟩
    simp
  | true =>
    rw [if_pos rfl] at hrun
    revert hrun
    cases hsafe : check_safe_to_deploy st with
    | none => intro hrun; exact Option.noConfusion hrun
    | some safe =>
      intro hrun
      cases safe with
      | true =>
        simp only [if_pos rfl] at hrun
        injection hrun with h
        subst h
        refine ⟨rfl, ?_, Or.inr ⟨rfl, rfl⟩⟩
        simp
      | false =>
        simp only [if_neg (by simp : ¬ (false = true))] at hrun
        injection hrun with h
        subst h
        exact ⟨rfl, by simp, Or.inl ⟨rfl, rfl⟩⟩

/-- Witness instantiating `main_run_outputs_and_exit` at a push event on a
human commit (clean exit 0). -/
theorem main_run_outputs_and_exit_witness :
    exRun.outputs = [("note_raw", "Commit: Fix bug https://x/h"),
        ("note_clean", shlexQuote "Commit: Fix bug https://x/h"),
        ("confirm", if true then "true" else "false")] ∧
    ((exRun.errorReported = true ∧ exRun.exitCode = 1) ↔
      (true = true ∧ check_safe_to_deploy exPushState = some false)) ∧
    ((true = true ∧ check_safe_to_deploy exPushState = some false) ∨
      (exRun.errorReported = false ∧ exRun.exitCode = 0)) :=
  main_run_outputs_and_exit exPushState exRun "Commit: Fix bug https://x/h" true
    rfl rfl rfl

/-- Every character kept by `takeWhile` satisfies the predicate. -/
theorem all_takeWhile_self (p : Char → Bool) (l : List Char) :
    (l.takeWhile p).all p = true := by
  induction l with
  | nil => rfl
  | cons c rest ih =>
    cases hp : p c with
    | true => simp [List.takeWhile_cons, hp, ih]
    | false => simp [List.takeWhile_cons, hp]

/-- Lists all of whose characters satisfy the predicate are kept whole by
`takeWhile`. -/
theorem takeWhile_of_all (p : Char → Bool) (l : List Char)
    (h : l.all p = true) : l.takeWhile p = l := by
  induction l with
  | nil => rfl
  | cons c rest ih =>
    rw [List.all_cons, Bool.and_eq_true] at h
    simp [List.takeWhile_cons, h.1, ih h.2]

/-- Splitting on a separator that does not occur keeps the whole list. -/
theorem splitHead_of_not_contains (sep : List Char) (l : List Char)
    (h : containsSeq sep l = false) : splitHead sep l = l := by
  induction l with
  | nil => rfl
  | cons c rest ih =>
    rw [containsSeq, Bool.or_eq_false_iff] at h
    simp only [splitHead, h.1, Bool.false_eq_true, if_false]
    rw [ih h.2]

/-- C7 (amended): whatever `_extract_title` returns contains no line-break
character, and it returns its input unchanged whenever the input is
non-empty, contains no line break, and contains neither of the literal
escape sequences backslash-n and backslash-r (on which the code also
splits). -/
theorem first_line_properties (m t : String) :
    (_extract_title m = some t → t.data.all (fun c => !isLineBreak c) = true) ∧
    (m ≠ "" → m.data.all (fun c => !isLineBreak c) = true →
      containsSeq ['\\', 'n'] m.data = false →
      containsSeq ['\\', 'r'] m.data = false →
      _extract_title m = some m) := by
  constructor
  · intro h
    unfold _extract_title at h
    revert h
    cases hsplit : splitHead ['\\', 'r'] (splitHead ['\\', 'n'] m.data) with
    | nil => intro h; exact Option.noConfusion h
    | cons c rest =>
      intro h
      injection h with h'
      rw [← h']
      exact all_takeWhile_self _ _
  · intro hne hall h1 h2
    obtain ⟨l⟩ := m
    cases l with
    | nil => exact absurd rfl hne
    | cons c rest =>
      unfold _extract_title
      rw [splitHead_of_not_contains _ _ h1, splitHead_of_not_contains _ _ h2]
      show some (String.mk (List.takeWhile (fun x => !isLineBreak x) (c :: rest))) =
        some (String.mk (c :: rest))
      rw [takeWhile_of_all _ _ hall]

/-- Counterexample to C7 as stated: the string with characters a,
backslash, n, b contains no line-break character, but `_extract_title`
returns just "a", not the input itself. -/
theorem first_line_counterexample :
    ("a\\nb" : String).data.all (fun c => !isLineBreak c) = true ∧
    _extract_title "a\\nb" = some "a" ∧
    _extract_title "a\\nb" ≠ some "a\\nb" := by
  refine ⟨by decide, rfl, by decide⟩

/-- Witness instantiating `first_line_properties` on a plain one-line
title. -/
theorem first_line_properties_witness :
    _extract_title "Fix bug" = some "Fix bug" :=
  (first_line_properties "Fix bug" "Fix bug").2 (by decide) (by decide)
    (by decide) (by decide)

/-- A character `shlex.quote` considers safe is none of the quoting
characters and is not shell-special. -/
theorem shlexSafe_not_special (c : Char) (h : isShlexSafeChar c = true) :
    (c == '\'') = false ∧ (c == '"') = false ∧ (c == '\\') = false ∧
    isShellSpecial c = false := by
  have hne : ∀ d : Char, isShlexSafeChar d = false → (c == d) = false := by
    intro d hd
    cases hq : c == d with
    | false => rfl
    | true =>
      rw [eq_of_beq hq] at h
      rw [h] at hd
      exact Bool.noConfusion hd
  refine ⟨hne _ (by decide), hne _ (by decide), hne _ (by decide), ?_⟩
  unfold isShellSpecial
  rw [hne ' ' (by decide), hne '\t' (by decide), hne '\n' (by decide),
      hne '|' (by decide), hne '&' (by decide), hne ';' (by decide),
      hne '<' (by decide), hne '>' (by decide), hne '(' (by decide),
      hne ')' (by decide), hne '$' (by decide), hne '"' (by decide),
      hne '\'' (by decide), hne '*' (by decide), hne '?' (by decide),
      hne '[' (by decide), hne ']' (by decide), hne '#' (by decide),
      hne '~' (by decide), hne '!' (by decide), hne '^' (by decide),
      hne '\\' (by decide), hne (Char.ofNat 0x60) (by decide),
      hne (Char.ofNat 0x7b) (by decide), hne (Char.ofNat 0x7d) (by decide)]
  rfl

/-- Scanner step: an opening single quote enters single-quote mode. -/
theorem pw_normal_sq (r : List Char) :
    parseWordM .normal ('\'' :: r) = parseWordM .single r := by
  cases r <;> rfl

/-- Scanner step: an opening double quote enters double-quote mode. -/
theorem pw_normal_dq (r : List Char) :
    parseWordM .normal ('"' :: r) = parseWordM .double r := by
  cases r <;> rfl

/-- Scanner step: a single quote closes single-quote mode. -/
theorem pw_single_close (r : List Char) :
    parseWordM .single ('\'' :: r) = parseWordM .normal r := rfl

/-- Scanner step: a double quote closes double-quote mode. -/
theorem pw_double_close (r : List Char) :
    parseWordM .double ('"' :: r) = parseWordM .normal r := by
  cases r <;> rfl

/-- Scanner step: a single quote inside double quotes is literal. -/
theorem pw_double_sq (r : List Char) :
    parseWordM .double ('\'' :: r) = consOpt '\'' (parseWordM .double r) := by
  cases r <;> rfl

/-- Scanner step: any other character inside single quotes is literal. -/
theorem pw_single_cons (c : Char) (r : List Char) (h : (c == '\'') = false) :
    parseWordM .single (c :: r) = consOpt c (parseWordM .single r) := by
  rw [parseWordM.eq_def]
  simp only [h]
  rfl

/-- Scanner step: a bare non-special character is literal. -/
theorem pw_normal_cons (c : Char) (r : List Char) (h1 : (c == '\'') = false)
    (h2 : (c == '"') = false) (h3 : (c == '\\') = false)
    (h4 : isShellSpecial c = false) :
    parseWordM .normal (c :: r) = consOpt c (parseWordM .normal r) := by
  cases r with
  | nil =>
    rw [parseWordM.eq_def]
    simp only [h1, h2, h3, h4]
    rfl
  | cons d t =>
    rw [parseWordM.eq_def]
    simp only [h1, h2, h3, h4]
    rfl

/-- A word of only shlex-safe characters dequotes to itself. -/
theorem parse_safe_chars (l : List Char) (h : l.all isShlexSafeChar = true) :
    parseWordM .normal l = some l := by
  induction l with
  | nil => rfl
  | cons c rest ih =>
    rw [List.all_cons, Bool.and_eq_true] at h
    obtain ⟨f1, f2, f3, f4⟩ := shlexSafe_not_special c h.1
    rw [pw_normal_cons c rest f1 f2 f3 f4, ih h.2]
    rfl

/-- The quote-escape rewrite leaves characters other than the single
quote in place. -/
theorem sqEscape_cons_other (c : Char) (cs : List Char) (h : (c == '\'') = false) :
    sqEscape (c :: cs) = c :: sqEscape cs := by
  rw [sqEscape, h]
  rfl

/-- Scanning a single-quoted escaped body recovers the original
characters and continues after the closing quote. -/
theorem parse_sq_escape (s : List Char) : ∀ r : List Char,
    parseWordM .single (sqEscape s ++ '\'' :: r) =
      (parseWordM .normal r).map (fun w => s ++ w) := by
  induction s with
  | nil =>
    intro r
    rw [show sqEscape [] ++ '\'' :: r = '\'' :: r from rfl, pw_single_close]
    cases parseWordM .normal r <;> rfl
  | cons c cs ih =>
    intro r
    by_cases hc : c = '\''
    · subst hc
      show parseWordM .single
        ('\'' :: '"' :: '\'' :: '"' :: '\'' :: (sqEscape cs ++ '\'' :: r)) = _
      rw [pw_single_close, pw_normal_dq, pw_double_sq, pw_double_close,
          pw_normal_sq, ih r]
      cases parseWordM .normal r <;> rfl
    · have hcb : (c == '\'') = false := by
        cases hq : c == '\'' with
        | false => rfl
        | true => exact absurd (eq_of_beq hq) hc
      rw [sqEscape_cons_other c cs hcb, List.cons_append,
          pw_single_cons c _ hcb, ih r]
      cases parseWordM .normal r <;> rfl

/-- C8: the shell-safe quoted form of any deploy-note string is
reversible — POSIX dequoting of `shlex.quote(s)` yields exactly `s`,
including embedded spaces, quotes, and punctuation. -/
theorem quote_unquote_roundtrip (s : String) :
    shellUnquote (shlexQuote s) = some s := by
  obtain ⟨l⟩ := s
  show (parseWordM .normal (shlexQuoteL l)).map String.mk = some (String.mk l)
  cases l with
  | nil => rfl
  | cons c rest =>
    by_cases hall : (c :: rest).all isShlexSafeChar = true
    · have hq : shlexQuoteL (c :: rest) = c :: rest := by
        unfold shlexQuoteL
        rw [if_neg (by simp), if_pos hall]
      rw [hq, parse_safe_chars _ hall]
      rfl
    · have hq : shlexQuoteL (c :: rest) = '\'' :: (sqEscape (c :: rest) ++ ['\'']) := by
        unfold shlexQuoteL
        rw [if_neg (by simp), if_neg hall]
      rw [hq, pw_normal_sq, parse_sq_escape (c :: rest) []]
      show some (String.mk ((c :: rest) ++ [])) = some (String.mk (c :: rest))
      rw [List.append_nil]
